import Mathlib

/-!
Shallow embedding of the QoS admission-control and metrics core of
`flask_app.py`: a global token bucket (`refill_tokens`, `qos_admit_op`),
a bounded sliding window of request samples (`record` on a deque of
maxlen 2000), and the derived metrics snapshot (`compute_metrics`).

Python wall-clock times (`time.time()`) are modelled as rationals.
Python's `int(x)` (truncation toward zero) and `round(x)`
(banker's rounding, half to even) are modelled exactly on rationals
by `pyInt` and `pyRound`; `round(x, n)` is `pyRoundTo n x`.
-/

namespace FlaskApp

/-- Python `int(x)` applied to a real-valued quantity: truncation toward zero. -/
def pyInt (x : ℚ) : ℤ :=
  if 0 ≤ x then ⌊x⌋ else ⌈x⌉

/-- Python 3 `round(x)`: nearest integer, ties broken to the even integer. -/
def pyRound (x : ℚ) : ℤ :=
  if x - ⌊x⌋ < 1/2 then ⌊x⌋
  else if 1/2 < x - ⌊x⌋ then ⌊x⌋ + 1
  else if ⌊x⌋ % 2 = 0 then ⌊x⌋ else ⌊x⌋ + 1

/-- Python `round(x, n)`: rounding to `n` decimal places. -/
def pyRoundTo (n : ℕ) (x : ℚ) : ℚ :=
  (pyRound (x * 10 ^ n) : ℚ) / 10 ^ n

/-- Source constant `TOKENS_PER_SEC = 5` (refill rate of the token bucket). -/
def TOKENS_PER_SEC : ℤ := 5

/-- Source constant `BURST = 10` (capacity of the token bucket). -/
def BURST : ℤ := 10

/-- Source constant: `WINDOW = deque(maxlen=2000)`. -/
def WINDOW_MAXLEN : ℕ := 2000

/-- The mutable globals of the token bucket: `tokens` and `last_refill`. -/
structure BucketState where
  tokens : ℤ
  last_refill : ℚ
deriving DecidableEq, Repr

/-- Initial bucket state: `tokens = BURST`, `last_refill = time.time()` at start. -/
def initBucket (t0 : ℚ) : BucketState :=
  ⟨BURST, t0⟩

/-- Source `refill_tokens()`, with the current clock `t` passed explicitly:
`elapsed = t - last_refill`, `add = int(elapsed * TOKENS_PER_SEC)`; if
`add > 0` then `tokens = min(BURST, tokens + add)` and `last_refill = t`. -/
def refill_tokens (t : ℚ) (s : BucketState) : BucketState :=
  let elapsed := t - s.last_refill
  let add := pyInt (elapsed * (TOKENS_PER_SEC : ℚ))
  if 0 < add then ⟨min BURST (s.tokens + add), t⟩ else s

/-- Source function named qos admit in the Python file: refill, then if
`tokens > 0` decrement and return `(True, 0)`, else return `(False, 1)`. -/
def qos_admit_op (t : ℚ) (s : BucketState) : (Bool × ℤ) × BucketState :=
  let s' := refill_tokens t s
  if 0 < s'.tokens then ((true, 0), ⟨s'.tokens - 1, s'.last_refill⟩)
  else ((false, 1), s')

/-- Run a sequence of admission calls at the given clock values, collecting
the `(allowed, retry_after)` results and the final bucket state. -/
def admitMany : List ℚ → BucketState → List (Bool × ℤ) × BucketState
  | [], s => ([], s)
  | t :: ts, s =>
    let r := qos_admit_op t s
    let rest := admitMany ts r.2
    (r.1 :: rest.1, rest.2)

/-- The bucket states observed after each admission call of a sequence. -/
def admitTrace : List ℚ → BucketState → List BucketState
  | [], _ => []
  | t :: ts, s =>
    let s' := (qos_admit_op t s).2
    s' :: admitTrace ts s'

/-- One entry `(t, endpoint, duration_ms, status)` of the `WINDOW` deque. -/
structure Sample where
  t : ℚ
  endpoint : String
  duration_ms : ℤ
  status : ℤ
deriving DecidableEq, Repr

/-- Appending to a `deque(maxlen=2000)`: when full, the oldest (leftmost)
entry is evicted first. -/
def pushWindow (w : List Sample) (x : Sample) : List Sample :=
  if w.length < WINDOW_MAXLEN then w ++ [x] else w.tail ++ [x]

/-- Source `record(endpoint, duration_ms, status)` with the clock passed
explicitly: `WINDOW.append((time.time(), endpoint, duration_ms, status))`. -/
def record (now : ℚ) (endpoint : String) (duration_ms status : ℤ)
    (w : List Sample) : List Sample :=
  pushWindow w ⟨now, endpoint, duration_ms, status⟩

/-- Record a whole list of samples in order into a window, oldest first. -/
def recordAll (w : List Sample) (xs : List Sample) : List Sample :=
  xs.foldl pushWindow w

/-- The expression `durations = sorted([d[2] for d in data])` of
`compute_metrics`: ascending sort of the recorded durations (on a list of
integers every correct ascending sort yields the same list, so insertion
sort embeds Python's `sorted` faithfully). -/
def sortedDurations (w : List Sample) : List ℤ :=
  (w.map Sample.duration_ms).insertionSort (fun a b => a ≤ b)

/-- The inner function `pct(p)` of `compute_metrics`:
`idx = int(round((p/100) * (len(durations)-1)))`, then
`durations[max(0, min(idx, len(durations)-1))]`. -/
def pct (durations : List ℤ) (p : ℕ) : ℤ :=
  let idx := pyRound ((p : ℚ) / 100 * ((durations.length : ℚ) - 1))
  durations.getD (max 0 (min idx ((durations.length : ℤ) - 1))).toNat 0

/-- The consecutive differences
`diffs = [abs(durations[i] - durations[i-1]) for i in range(1, len(durations))]`. -/
def absDiffs (durations : List ℤ) : List ℤ :=
  List.zipWith (fun prev cur => |cur - prev|) durations durations.tail

/-- The `latency_ms` sub-object of the metrics payload. -/
structure LatencyMs where
  p50 : ℤ
  p90 : ℤ
  p95 : ℤ
  p99 : ℤ
  maxv : ℤ
deriving DecidableEq, Repr

/-- The `qos_policy.token_bucket` sub-object of the metrics payload. -/
structure TokenBucketPolicy where
  tokens_per_sec : ℤ
  burst : ℤ
deriving DecidableEq, Repr

/-- The metrics payload returned by `compute_metrics` when the window is
non-empty. -/
structure Metrics where
  count : ℕ
  error_rate : ℚ
  rps_last_60s : ℚ
  latency_ms : LatencyMs
  jitter_ms_avg_absdiff : ℚ
  qos_policy : TokenBucketPolicy
deriving DecidableEq, Repr

/-- Source `compute_metrics()` with the clock passed explicitly. An empty
window yields `none` (the source returns the empty dict `{}`); otherwise the
full payload is computed from the window contents and the static policy
constants. -/
def compute_metrics (now : ℚ) (w : List Sample) : Option Metrics :=
  if w = [] then none
  else
    let durations := sortedDurations w
    let errors := (w.filter (fun d => 400 ≤ d.status)).length
    let total := w.length
    let error_rate : ℚ := (errors : ℚ) / (total : ℚ)
    let cutoff := now - 60
    let last60 := w.filter (fun d => cutoff ≤ d.t)
    let rps : ℚ := if last60 ≠ [] then (last60.length : ℚ) / 60 else 0
    let diffs := absDiffs durations
    let jitter : ℚ :=
      if diffs ≠ [] then (diffs.sum : ℚ) / (diffs.length : ℚ) else 0
    some
      { count := total
        error_rate := pyRoundTo 4 error_rate
        rps_last_60s := pyRoundTo 3 rps
        latency_ms :=
          { p50 := pct durations 50
            p90 := pct durations 90
            p95 := pct durations 95
            p99 := pct durations 99
            maxv := durations.getD (durations.length - 1) 0 }
        jitter_ms_avg_absdiff := pyRoundTo 2 jitter
        qos_policy := { tokens_per_sec := TOKENS_PER_SEC, burst := BURST } }

/-- The full mutable server state: the metrics window plus the token bucket. -/
structure ServerState where
  window : List Sample
  bucket : BucketState
deriving DecidableEq, Repr

/-- The `/qos` handler's interaction with the state: `compute_metrics` only
reads `WINDOW`, `TOKENS_PER_SEC` and `BURST` and assigns no global, so the
state component is returned unchanged. -/
def snapshot (now : ℚ) (g : ServerState) : Option Metrics × ServerState :=
  (compute_metrics now g.window, g)

/-- The `/qos/reset` handler: `WINDOW.clear()`. -/
def qos_reset (g : ServerState) : ServerState :=
  { g with window := [] }

/-- Specification-side nearest-rank percentile, following the spec's wording:
index `round((p/100) * (total - 1))`, clamped to `[0, total-1]`, into the
ascending-sorted durations. -/
def pct_spec (sorted : List ℤ) (p : ℕ) : ℤ :=
  let total := sorted.length
  let idx := pyRound ((p : ℚ) / 100 * ((total : ℚ) - 1))
  sorted.getD (max 0 (min idx ((total : ℤ) - 1))).toNat 0

/-- Specification-side jitter: mean of the absolute differences between
consecutive elements of the ascending-sorted durations (0 when fewer than
two elements exist). -/
def jitter_spec (sorted : List ℤ) : ℚ :=
  let diffs := absDiffs sorted
  if diffs = [] then 0 else (diffs.sum : ℚ) / (diffs.length : ℚ)

/-! Invariant of the token bucket. -/

/-- The bucket-bounds invariant `0 ≤ tokens ≤ BURST`. -/
def BucketInv (s : BucketState) : Prop :=
  0 ≤ s.tokens ∧ s.tokens ≤ BURST

theorem bucketInv_refill (t : ℚ) (s : BucketState) (h : BucketInv s) :
    BucketInv (refill_tokens t s) := by
  obtain ⟨h0, h1⟩ := h
  simp only [refill_tokens]
  split
  · rename_i hadd
    refine ⟨le_min (by norm_num [BURST]) (by linarith), min_le_left _ _⟩
  · exact ⟨h0, h1⟩

theorem bucketInv_admit_op (t : ℚ) (s : BucketState) (h : BucketInv s) :
    BucketInv (qos_admit_op t s).2 := by
  have h' := bucketInv_refill t s h
  obtain ⟨h0, h1⟩ := h'
  simp only [qos_admit_op]
  split
  · rename_i hpos
    exact ⟨by dsimp only; omega, by dsimp only; omega⟩
  · exact ⟨h0, h1⟩

theorem bucketInv_admitTrace (ts : List ℚ) (s : BucketState) (h : BucketInv s) :
    ∀ x ∈ admitTrace ts s, BucketInv x := by
  induction ts generalizing s with
  | nil => simp [admitTrace]
  | cons t ts ih =>
    intro x hx
    simp only [admitTrace, List.mem_cons] at hx
    rcases hx with rfl | hx
    · exact bucketInv_admit_op t s h
    · exact ih _ (bucketInv_admit_op t s h) x hx

/-- Claim C1: for every sequence of `admit()` calls at non-decreasing clock
values, starting from `tokens = BURST`, the token count satisfies
`0 ≤ tokens ≤ BURST` before and after every call (i.e. at the initial state
and at every state of the trace). -/
theorem bucket_bounds (t0 : ℚ) (ts : List ℚ)
    (hmono : List.Chain' (fun a b => a ≤ b) (t0 :: ts)) :
    ∀ s ∈ initBucket t0 :: admitTrace ts (initBucket t0),
      0 ≤ s.tokens ∧ s.tokens ≤ BURST := by
  intro s hs
  rcases List.mem_cons.mp hs with rfl | hs
  · exact ⟨by norm_num [initBucket, BURST], by norm_num [initBucket]⟩
  · exact bucketInv_admitTrace ts (initBucket t0)
      ⟨by norm_num [initBucket, BURST], by norm_num [initBucket]⟩ s hs

/-- Witness for C1: the bounds hold on a concrete one-call trace. -/
theorem bucket_bounds_witness :
    0 ≤ (initBucket 0).tokens ∧ (initBucket 0).tokens ≤ BURST :=
  bucket_bounds 0 [] (by simp) (initBucket 0) (by simp)

/-- Claim C2: from a fresh bucket (capacity 10, rate 5/s), 10 `admit()` calls
at the same instant all return `Allowed`; an 11th call at that instant returns
`Denied` with `retryAfterSeconds = 1`; after advancing the clock by `d ≥ 1`
seconds the next call returns `Allowed` again. -/
theorem starvation_recovery (t0 d : ℚ) (hd : 1 ≤ d) :
    (admitMany (List.replicate 10 t0) (initBucket t0)).1 =
      List.replicate 10 (true, 0) ∧
    (qos_admit_op t0 (admitMany (List.replicate 10 t0) (initBucket t0)).2).1 =
      (false, 1) ∧
    ((qos_admit_op (t0 + d)
      (qos_admit_op t0 (admitMany (List.replicate 10 t0) (initBucket t0)).2).2).1).1 =
      true := by
  have hrep : List.replicate 10 t0 = [t0, t0, t0, t0, t0, t0, t0, t0, t0, t0] := rfl
  have hstate : admitMany (List.replicate 10 t0) (initBucket t0) =
      (List.replicate 10 (true, 0), ⟨0, t0⟩) := by
    rw [hrep]
    norm_num [admitMany, qos_admit_op, refill_tokens, pyInt, initBucket, BURST,
      TOKENS_PER_SEC, List.replicate]
  have h11 : qos_admit_op t0 (⟨0, t0⟩ : BucketState) = ((false, 1), ⟨0, t0⟩) := by
    norm_num [qos_admit_op, refill_tokens, pyInt]
  have hd0 : (0:ℚ) ≤ d * ((5:ℤ):ℚ) := by push_cast; nlinarith
  have hfl : (5:ℤ) ≤ ⌊d * ((5:ℤ):ℚ)⌋ := by
    rw [Int.le_floor]; push_cast; linarith
  have hlast : ((qos_admit_op (t0 + d) (⟨0, t0⟩ : BucketState)).1).1 = true := by
    have hx : t0 + d - t0 = d := by ring
    simp only [qos_admit_op, refill_tokens, pyInt, hx, TOKENS_PER_SEC]
    rw [if_pos hd0, if_pos (by omega : (0:ℤ) < ⌊d * ((5:ℤ):ℚ)⌋)]
    rw [if_pos (by
      dsimp only
      have : (5:ℤ) ≤ min BURST (0 + ⌊d * ((5:ℤ):ℚ)⌋) := by
        refine le_min (by norm_num [BURST]) (by omega)
      omega)]
  refine ⟨by rw [hstate], by rw [hstate, h11], by rw [hstate, h11, hlast]⟩

/-- Witness for C2: the scenario at start time 0 with a 1-second advance. -/
theorem starvation_recovery_witness :
    (admitMany (List.replicate 10 (0:ℚ)) (initBucket 0)).1 =
      List.replicate 10 (true, 0) ∧
    (qos_admit_op 0 (admitMany (List.replicate 10 (0:ℚ)) (initBucket 0)).2).1 =
      (false, 1) ∧
    ((qos_admit_op (0 + 1)
      (qos_admit_op 0 (admitMany (List.replicate 10 (0:ℚ)) (initBucket 0)).2).2).1).1 =
      true :=
  starvation_recovery 0 1 (by norm_num)

/-- Claim C4: `refill(now)` adds `add = floor(elapsed * R)` tokens where
`elapsed = now - t_last`: if `add > 0` the tokens become
`min(capacity, tokens + add)` and `t_last` becomes `now`; otherwise (in
particular when `add = 0`) the state is unchanged. -/
theorem refill_tokens_spec (t : ℚ) (s : BucketState) :
    refill_tokens t s =
      if 0 < ⌊(t - s.last_refill) * (TOKENS_PER_SEC : ℚ)⌋ then
        ⟨min BURST (s.tokens + ⌊(t - s.last_refill) * (TOKENS_PER_SEC : ℚ)⌋), t⟩
      else s := by
  simp only [refill_tokens, pyInt]
  by_cases h0 : 0 ≤ (t - s.last_refill) * (TOKENS_PER_SEC : ℚ)
  · simp [h0]
  · push_neg at h0
    have hc : ⌈(t - s.last_refill) * (TOKENS_PER_SEC : ℚ)⌉ ≤ 0 :=
      Int.ceil_le.mpr (by exact_mod_cast h0.le)
    have hf : ⌊(t - s.last_refill) * (TOKENS_PER_SEC : ℚ)⌋ ≤ 0 :=
      le_trans (Int.floor_le_ceil _) hc
    rw [if_neg (not_le.mpr h0), if_neg (not_lt.mpr hc), if_neg (not_lt.mpr hf)]

theorem recordAll_drop (xs : List Sample) :
    ∀ w : List Sample, w.length ≤ WINDOW_MAXLEN →
      recordAll w xs = (w ++ xs).drop ((w ++ xs).length - WINDOW_MAXLEN) := by
  induction xs with
  | nil =>
    intro w hw
    have h0 : w.length - WINDOW_MAXLEN = 0 := by omega
    simp [recordAll, h0]
  | cons x xs ih =>
    intro w hw
    have hfold : recordAll w (x :: xs) = recordAll (pushWindow w x) xs := rfl
    rw [hfold]
    by_cases hlt : w.length < WINDOW_MAXLEN
    · have hpw : pushWindow w x = w ++ [x] := by
        simp only [pushWindow, if_pos hlt]
      rw [hpw, ih (w ++ [x]) (by simp; omega)]
      simp
    · have hlen : w.length = WINDOW_MAXLEN := le_antisymm hw (not_lt.mp hlt)
      have hne : w ≠ [] := by
        intro h; rw [h] at hlen; simp [WINDOW_MAXLEN] at hlen
      obtain ⟨a, w', rfl⟩ := List.exists_cons_of_ne_nil hne
      have hn : w'.length = 1999 := by
        simp [WINDOW_MAXLEN] at hlen; omega
      have hpw : pushWindow (a :: w') x = w' ++ [x] := by
        simp only [pushWindow, if_neg hlt, List.tail_cons]
      rw [hpw, ih (w' ++ [x]) (by simp [hn, WINDOW_MAXLEN])]
      have e1 : (w' ++ [x]) ++ xs = w' ++ x :: xs := by simp
      have hL : ((w' ++ [x]) ++ xs).length - WINDOW_MAXLEN = xs.length := by
        simp [hn, WINDOW_MAXLEN]
        omega
      have hR : ((a :: w') ++ x :: xs).length - WINDOW_MAXLEN = xs.length + 1 := by
        simp [hn, WINDOW_MAXLEN]
      rw [hL, hR, e1, List.cons_append, List.drop_succ_cons]

/-- Claim C5: recording `WINDOW_MAXLEN + k` samples (`k ≥ 1`) into an empty
window leaves exactly `WINDOW_MAXLEN` samples: the last `WINDOW_MAXLEN` in
insertion order, the oldest `k` evicted. -/
theorem window_eviction (xs : List Sample) (k : ℕ) (hk : 1 ≤ k)
    (hlen : xs.length = WINDOW_MAXLEN + k) :
    recordAll [] xs = xs.drop k ∧ (recordAll [] xs).length = WINDOW_MAXLEN := by
  have h := recordAll_drop xs [] (by simp)
  simp only [List.nil_append] at h
  have hamt : xs.length - WINDOW_MAXLEN = k := by omega
  rw [h, hamt]
  exact ⟨rfl, by simp [hlen, hamt]⟩

/-- Witness for C5: 2001 identical samples leave the last 2000. -/
theorem window_eviction_witness :
    recordAll [] (List.replicate 2001 (⟨0, "/slow", 1, 200⟩ : Sample)) =
      (List.replicate 2001 (⟨0, "/slow", 1, 200⟩ : Sample)).drop 1 ∧
    (recordAll [] (List.replicate 2001 (⟨0, "/slow", 1, 200⟩ : Sample))).length =
      WINDOW_MAXLEN :=
  window_eviction _ 1 (by norm_num) (by rw [List.length_replicate]; decide)

/-- Claim C6: on an empty window — in particular immediately after
`qos_reset` — `compute_metrics` returns the empty payload `none`, not an
error and not a division by zero. -/
theorem empty_snapshot (now : ℚ) (g : ServerState) :
    compute_metrics now (qos_reset g).window = none ∧
    compute_metrics now [] = none :=
  ⟨rfl, rfl⟩

theorem sortedDurations_length (w : List Sample) :
    (sortedDurations w).length = w.length := by
  simp [sortedDurations, List.length_insertionSort]

theorem sortedDurations_ne_nil (w : List Sample) (h : w ≠ []) :
    sortedDurations w ≠ [] := by
  rw [← List.length_pos, sortedDurations_length]
  exact List.length_pos.mpr h

theorem getLast?_eq_getD (l : List ℤ) (h : l ≠ []) :
    l.getLast? = some (l.getD (l.length - 1) 0) := by
  have hlt : l.length - 1 < l.length := by
    cases l with
    | nil => simp at h
    | cons a t => simp
  rw [List.getLast?_eq_getElem?, List.getD_eq_getElem?_getD,
    List.getElem?_eq_getElem hlt]
  rfl

/-- Claim C3: for every non-empty window the reported percentiles are the
nearest-rank picks `pct_spec` (index `round((p/100)*(total-1))`, clamped)
from the ascending-sorted durations, for p = 50, 90, 95, 99, and the
reported max is the last element of the sorted list. -/
theorem percentile_correct (now : ℚ) (w : List Sample) (h : w ≠ []) :
    (compute_metrics now w).map (fun m => m.latency_ms.p50) =
      some (pct_spec (sortedDurations w) 50) ∧
    (compute_metrics now w).map (fun m => m.latency_ms.p90) =
      some (pct_spec (sortedDurations w) 90) ∧
    (compute_metrics now w).map (fun m => m.latency_ms.p95) =
      some (pct_spec (sortedDurations w) 95) ∧
    (compute_metrics now w).map (fun m => m.latency_ms.p99) =
      some (pct_spec (sortedDurations w) 99) ∧
    (compute_metrics now w).map (fun m => m.latency_ms.maxv) =
      (sortedDurations w).getLast? := by
  have hmax : (sortedDurations w).getLast? =
      some ((sortedDurations w).getD ((sortedDurations w).length - 1) 0) :=
    getLast?_eq_getD _ (sortedDurations_ne_nil w h)
  refine ⟨?_, ?_, ?_, ?_, ?_⟩ <;>
    simp only [compute_metrics, if_neg h, Option.map_some'] <;>
    first
      | rfl
      | rw [hmax]

/-- Concrete example window with durations 10–50 recorded out of order. -/
def wEx : List Sample :=
  [⟨0, "/slow", 30, 200⟩, ⟨1, "/slow", 10, 200⟩, ⟨2, "/slow", 50, 500⟩,
   ⟨3, "/slow", 20, 200⟩, ⟨4, "/slow", 40, 404⟩]

/-- Witness for C3: on durations 10–50, p50 = 30 and max = 50. -/
theorem percentile_correct_witness :
    (compute_metrics 10 wEx).map (fun m => m.latency_ms.p50) = some 30 ∧
    (compute_metrics 10 wEx).map (fun m => m.latency_ms.maxv) = some 50 := by
  have hp := percentile_correct 10 wEx (by decide)
  exact ⟨hp.1.trans (by with_unfolding_all rfl),
    (hp.2.2.2.2).trans (by with_unfolding_all rfl)⟩

theorem jitter_code_eq (sorted : List ℤ) :
    (if absDiffs sorted ≠ [] then
        ((absDiffs sorted).sum : ℚ) / ((absDiffs sorted).length : ℚ)
      else 0) = jitter_spec sorted := by
  simp only [jitter_spec]
  by_cases hd : absDiffs sorted = []
  · rw [if_neg (not_not_intro hd), if_pos hd]
  · rw [if_pos hd, if_neg hd]

/-- Claim C7: for every non-empty window the reported jitter is the mean of
the absolute differences of consecutive elements of the ascending-sorted
durations, rounded to 2 decimal places, and a single-sample window reports
jitter 0. -/
theorem jitter_correct (now : ℚ) (w : List Sample) (h : w ≠ []) :
    (compute_metrics now w).map (fun m => m.jitter_ms_avg_absdiff) =
      some (pyRoundTo 2 (jitter_spec (sortedDurations w))) ∧
    (w.length = 1 →
      (compute_metrics now w).map (fun m => m.jitter_ms_avg_absdiff) =
        some 0) := by
  constructor
  · simp only [compute_metrics, if_neg h, Option.map_some', jitter_code_eq]
  · intro h1
    obtain ⟨a, ha⟩ := List.length_eq_one.mp
      (by rw [sortedDurations_length]; exact h1)
    simp only [compute_metrics, if_neg h, Option.map_some']
    have hd : absDiffs (sortedDurations w) = [] := by
      rw [ha]; rfl
    rw [if_neg (not_not_intro hd)]
    norm_num [pyRoundTo, pyRound]

/-- Witness for C7: a singleton window reports jitter 0. -/
theorem jitter_correct_witness :
    (compute_metrics 0 [(⟨0, "/slow", 7, 200⟩ : Sample)]).map
      (fun m => m.jitter_ms_avg_absdiff) = some 0 :=
  (jitter_correct 0 [⟨0, "/slow", 7, 200⟩] (by decide)).2 (by decide)

/-- Claim C8: for every non-empty window the reported throughput is the
sample count in the last 60 seconds divided by the fixed constant 60 and
rounded to 3 decimal places, and exactly 0 when no sample lies in the
last 60 seconds. -/
theorem throughput_correct (now : ℚ) (w : List Sample) (h : w ≠ []) :
    (compute_metrics now w).map (fun m => m.rps_last_60s) =
      some (if w.filter (fun d => now - 60 ≤ d.t) = [] then 0
        else pyRoundTo 3
          (((w.filter (fun d => now - 60 ≤ d.t)).length : ℚ) / 60)) := by
  simp only [compute_metrics, if_neg h, Option.map_some']
  by_cases hf : w.filter (fun d => now - 60 ≤ d.t) = []
  · rw [if_neg (not_not_intro hf), if_pos hf]
    norm_num [pyRoundTo, pyRound]
  · rw [if_pos hf, if_neg hf]

/-- Witness for C8: five samples inside the last 60 seconds report
`round(5/60, 3) = 0.083`. -/
theorem throughput_correct_witness :
    (compute_metrics 10 wEx).map (fun m => m.rps_last_60s) =
      some (83/1000) :=
  (throughput_correct 10 wEx (by decide)).trans (by with_unfolding_all rfl)

/-- Claim C10: `snapshot` is a pure read: it leaves the whole server state
(window, tokens, last-refill time) unchanged, and every payload it produces
echoes the static policy constants `tokens_per_sec = 5`, `burst = 10`, not
live bucket state. -/
theorem snapshot_pure (now : ℚ) (g : ServerState) :
    (snapshot now g).2 = g ∧
    (∀ m ∈ (snapshot now g).1,
      m.qos_policy = ⟨TOKENS_PER_SEC, BURST⟩) ∧
    TOKENS_PER_SEC = 5 ∧ BURST = 10 := by
  refine ⟨rfl, ?_, rfl, rfl⟩
  intro m hm
  by_cases hw : g.window = [] <;>
    simp [snapshot, compute_metrics, hw] at hm
  rw [← hm]

end FlaskApp
